import Mathlib

/-!
Shallow embedding of the core of the `bun-http-template` repository:
the `RouteBuilder` class (`src/structures/RouteBuilder.ts`), the endpoint
derivation function `getEndpoint` and the request dispatcher
(`src/http.ts`).  JavaScript runtime values are modelled by the inductive
type `JsValue`; the mutable `request` object is modelled by explicit state
passing (a middleware receives a request and returns its awaited result
together with the possibly mutated request).
-/

namespace BunHttp

/--
A JavaScript runtime value as far as the routing core can observe it.
`response s b` models a `Response` object with HTTP status `s` whose JSON
body is `b` (headers are irrelevant to the routing logic and omitted);
`Response.json(x)` without an explicit status produces status 200.
-/
inductive JsValue where
  | undefined
  | nullV
  | bool (b : Bool)
  | str (s : String)
  | num (n : Int)
  | arr (xs : List JsValue)
  | obj (fields : List (String × JsValue))
  | response (status : Nat) (body : JsValue)

/-- `instanceof Response` test used by the compiled handler and dispatcher. -/
def isResponse : JsValue → Bool
  | JsValue.response _ _ => true
  | _ => false

/-- Strict equality test `result === false` used by the compiled handler. -/
def isFalseLiteral : JsValue → Bool
  | JsValue.bool false => true
  | _ => false

/--
The in-flight request object (`BunRequest`).  `url`, `method`,
`headersList` and `paramsList` model the read-only request data the
validation middleware extracts; `jsonBody` models the result of
`req.json()` (`none` = the body is not valid JSON, so `req.json()`
rejects).  `vBody`/`vQuery`/`vHeaders`/`vParams` model the `body`, `query`,
`headers` and `params` properties that `_validateSchema` assigns onto the
request object (`(request as any)[part.key] = result.data`); they are kept
separate from the raw data because each raw source is read before the
corresponding property is written.
-/
structure Req where
  url : String
  method : String
  jsonBody : Option JsValue
  headersList : List (String × String)
  paramsList : List (String × String)
  vBody : JsValue := JsValue.undefined
  vQuery : JsValue := JsValue.undefined
  vHeaders : JsValue := JsValue.undefined
  vParams : JsValue := JsValue.undefined

/--
A middleware (`src/types`): receives the request, returns its awaited
result and the possibly mutated request (state passing for JS mutation).
-/
def Middleware : Type := Req → JsValue × Req

/-- A business route handler: receives the request, returns its awaited result. -/
def Handler : Type := Req → JsValue

/--
`return handlerResult instanceof Response ? handlerResult : Response.json(handlerResult)`
(`RouteBuilder.build`, line 180).
-/
def normalizeHandlerResult (v : JsValue) : JsValue :=
  match v with
  | JsValue.response s b => JsValue.response s b
  | _ => JsValue.response 200 v

/--
The compiled per-method handler produced by `RouteBuilder.build`
(lines 168-181): run each middleware in order, returning a middleware
result that is a `Response` as-is, turning a strict `false` into
`new Response(null, { status: 403 })`, otherwise continuing; after the
chain, await the business handler and normalize its result.
-/
def compiledHandler (handler : Handler) : List Middleware → Req → JsValue
  | [], request => normalizeHandlerResult (handler request)
  | middleware :: rest, request =>
    match (middleware request).1 with
    | JsValue.response s b => JsValue.response s b
    | JsValue.bool false => JsValue.response 403 JsValue.nullV
    | _ => compiledHandler handler rest (middleware request).2

/-- An execution event of the compiled handler: middleware number `i` ran, or the business handler ran. -/
inductive ChainEvent where
  | mw (i : Nat)
  | handlerRun
deriving DecidableEq

/--
`compiledHandler` instrumented with an execution trace: same control flow,
but additionally records which middleware (by position, starting at `i`)
and whether the business handler were invoked.
-/
def compiledHandlerTrace (handler : Handler) : List Middleware → Nat → Req → JsValue × List ChainEvent
  | [], _, request => (normalizeHandlerResult (handler request), [ChainEvent.handlerRun])
  | middleware :: rest, i, request =>
    match (middleware request).1 with
    | JsValue.response s b => (JsValue.response s b, [ChainEvent.mw i])
    | JsValue.bool false => (JsValue.response 403 JsValue.nullV, [ChainEvent.mw i])
    | _ =>
      let r := compiledHandlerTrace handler rest (i + 1) (middleware request).2
      (r.1, ChainEvent.mw i :: r.2)

/--
`true` when no middleware in the list short-circuits (returns a `Response`
or a strict `false`) starting from the given request state.
-/
def chainPasses : List Middleware → Req → Bool
  | [], _ => true
  | middleware :: rest, req =>
    match (middleware req).1 with
    | JsValue.response _ _ => false
    | JsValue.bool false => false
    | _ => chainPasses rest (middleware req).2

/--
The request state after the whole middleware list has run without
short-circuiting (the state the business handler observes).
-/
def chainFinal : List Middleware → Req → Req
  | [], req => req
  | middleware :: rest, req =>
    match (middleware req).1 with
    | JsValue.response _ _ => req
    | JsValue.bool false => req
    | _ => chainFinal rest (middleware req).2

/-! ## JavaScript string primitives used by `src/http.ts` -/

/-- ASCII lower-casing of one character (enough for `i`-flagged regexes over ASCII). -/
def jsLowerChar (c : Char) : Char :=
  if 'A' ≤ c ∧ c ≤ 'Z' then Char.ofNat (c.toNat + 32) else c

/-- ASCII upper-casing of one character. -/
def jsUpperChar (c : Char) : Char :=
  if 'a' ≤ c ∧ c ≤ 'z' then Char.ofNat (c.toNat - 32) else c

/-- `String.prototype.toUpperCase` over the ASCII strings the router uses. -/
def jsToUpperCase (s : String) : String :=
  String.mk (s.toList.map jsUpperChar)

/-- `path.replace(/\\/g, '/')` — the `normalize` helper of `src/http.ts`. -/
def normalizeSlashes (l : List Char) : List Char :=
  l.map (fun c => if c = '\\' then '/' else c)

/--
`str.replace(pat, repl)` with a plain-string pattern: JavaScript replaces
only the first occurrence of `pat`.
-/
def replaceFirstStr (pat repl : List Char) : List Char → List Char
  | [] => if pat = [] then repl else []
  | c :: cs =>
    if pat.isPrefixOf (c :: cs) then repl ++ (c :: cs).drop pat.length
    else c :: replaceFirstStr pat repl cs

/-- Case-insensitive suffix test (the `$`-anchored, `i`-flagged regex checks). -/
def endsWithCI (suffix l : List Char) : Bool :=
  decide ((l.drop (l.length - suffix.length)).map jsLowerChar = suffix)

/-- Remove the last `n` characters. -/
def dropLastN (n : Nat) (l : List Char) : List Char :=
  l.take (l.length - n)

/-- `.replace(/\.(ts|js)$/i, '')` — strip one trailing source-file extension. -/
def stripSourceExt (l : List Char) : List Char :=
  if endsWithCI ['.', 't', 's'] l || endsWithCI ['.', 'j', 's'] l then dropLastN 3 l else l

/-- `.replace(/_/g, ':')` — every underscore anywhere becomes a colon. -/
def underscoreToColon (l : List Char) : List Char :=
  l.map (fun c => if c = '_' then ':' else c)

/-- `true` when the string starts with `'/'`. -/
def startsSlash : List Char → Bool
  | [] => false
  | c :: _ => decide (c = '/')

/-- `.replace(/^\/?/, '/')` — ensure the string starts with a slash. -/
def ensureLeadingSlash (l : List Char) : List Char :=
  if startsSlash l then l else '/' :: l

/--
`.replace(/\/?(index|root)$/i, '')` — remove a trailing `index` or `root`
(with the slash before it when present), case-insensitively.  The regex
matches the suffix even when `index`/`root` is only the tail of the final
segment.
-/
def stripIndexRoot (l : List Char) : List Char :=
  if endsWithCI ['/', 'i', 'n', 'd', 'e', 'x'] l then dropLastN 6 l
  else if endsWithCI ['i', 'n', 'd', 'e', 'x'] l then dropLastN 5 l
  else if endsWithCI ['/', 'r', 'o', 'o', 't'] l then dropLastN 5 l
  else if endsWithCI ['r', 'o', 'o', 't'] l then dropLastN 4 l
  else l

/--
The normalized routes-root prefix stripped by `getEndpoint`.  At runtime it
is `${import.meta.dirname}/routes`; the spec states all its example file
paths relative to the repository with the routes root written `routes`, so
the model fixes the normalized root to that string.
-/
def routesDirectory : String := "routes"

/-- `getEndpoint` of `src/http.ts` (lines 14-23), over character lists. -/
def getEndpointL (routesDirL pathL : List Char) : List Char :=
  let relative :=
    ensureLeadingSlash (underscoreToColon (stripSourceExt (replaceFirstStr routesDirL [] (normalizeSlashes pathL))))
  let stripped := stripIndexRoot relative
  let cleaned := if stripped = [] then ['/'] else stripped
  if startsSlash cleaned then cleaned else '/' :: cleaned

/--
`getEndpoint` of `src/http.ts`: derive the endpoint pattern from a route
module's file path.
-/
def getEndpoint (filePath : String) : String :=
  String.mk (getEndpointL (normalizeSlashes routesDirectory.toList) filePath.toList)

/-! ## URL helpers (`new URL(...)` as used by the dispatcher and validation) -/

/-- Drop everything up to and including the `://` scheme marker. -/
def afterSchemeMarker : List Char → List Char
  | [] => []
  | ':' :: '/' :: '/' :: rest => rest
  | _ :: rest => afterSchemeMarker rest

/-- `new URL(url).pathname` for an absolute http URL. -/
def urlPathnameL (l : List Char) : List Char :=
  let afterHost := (afterSchemeMarker l).dropWhile (fun c => !(c == '/' || c == '?' || c == '#'))
  let path := afterHost.takeWhile (fun c => !(c == '?' || c == '#'))
  if path = [] then ['/'] else path

/-- `new URL(url).pathname` over strings. -/
def urlPathname (url : String) : String :=
  String.mk (urlPathnameL url.toList)

/-- The query component of an absolute URL (after the first `?`, before any `#`). -/
def urlQueryL (l : List Char) : List Char :=
  ((l.takeWhile (fun c => !(c == '#'))).dropWhile (fun c => !(c == '?'))).drop 1

/-- Split a character list on a separator character. -/
def splitOnChar (sep : Char) : List Char → List (List Char)
  | [] => [[]]
  | c :: rest =>
    let r := splitOnChar sep rest
    if c = sep then [] :: r
    else
      match r with
      | [] => [[c]]
      | seg :: segs => (c :: seg) :: segs

/-- One `name=value` query segment, split at the first `=`. -/
def parseParamSeg (seg : List Char) : List Char × List Char :=
  (seg.takeWhile (fun c => !(c == '=')), (seg.dropWhile (fun c => !(c == '='))).drop 1)

/-- `new URL(url).searchParams` as an ordered list of name/value pairs. -/
def searchParamPairs (url : String) : List (String × String) :=
  ((splitOnChar '&' (urlQueryL url.toList)).filter (fun seg => !seg.isEmpty)).map
    (fun seg => (String.mk (parseParamSeg seg).1, String.mk (parseParamSeg seg).2))

/-- Insert or overwrite a key in an insertion-ordered string-keyed record. -/
def setKey {α : Type} (l : List (String × α)) (k : String) (v : α) : List (String × α) :=
  match l with
  | [] => [(k, v)]
  | p :: rest => if p.1 = k then (p.1, v) :: rest else p :: setKey rest k v

/-- `Object.fromEntries`: first-insertion key order, last value wins. -/
def jsFromEntries {α : Type} (ps : List (String × α)) : List (String × α) :=
  ps.foldl (fun acc p => setKey acc p.1 p.2) []

/-- Plain-object / `Map` lookup by string key. -/
def jsLookup {α : Type} (l : List (String × α)) (k : String) : Option α :=
  match l with
  | [] => none
  | p :: rest => if p.1 = k then some p.2 else jsLookup rest k

/-! ## Validation middleware (`RouteBuilder._validateSchema`) -/

/--
A thrown JavaScript value: an `Error` object with a message, or any other
value.  The `catch` in `_validateSchema` distinguishes
`error instanceof Error && error.message === 'Invalid JSON in request body'`
from everything else.
-/
inductive ThrownVal where
  | errObj (msg : String)
  | rawVal (v : JsValue)

/--
Outcome of `schema.safeParse(data)`: a success carrying the parsed data, a
failure carrying `result.error.issues`, or an exception escaping the parse
(Zod user code such as a `transform` may throw; `safeParse`'s contract
covers only Zod's own failures).
-/
inductive ParseOutcome where
  | success (data : JsValue)
  | failure (issues : JsValue)
  | thrown (e : ThrownVal)

/-- A Zod schema, observed through `safeParse`. -/
def Validator : Type := JsValue → ParseOutcome

/-- The per-method schema set (`ValidationSchemas` in `src/types`). -/
structure ValidationSchemas where
  body : Option Validator := none
  query : Option Validator := none
  params : Option Validator := none
  headers : Option Validator := none

/-- The four request parts a schema set can validate. -/
inductive PartKey where
  | body
  | query
  | headers
  | params
deriving DecidableEq

/-- The order of the `validationParts` array in `RouteBuilder.ts`. -/
def validationOrder : List PartKey :=
  [PartKey.body, PartKey.query, PartKey.headers, PartKey.params]

/-- `part.name` of each entry of `validationParts`. -/
def partName : PartKey → String
  | PartKey.body => "Body"
  | PartKey.query => "Query"
  | PartKey.headers => "Headers"
  | PartKey.params => "URL Parameters"

/-- `schemas[part.key]`. -/
def partSchema (s : ValidationSchemas) : PartKey → Option Validator
  | PartKey.body => s.body
  | PartKey.query => s.query
  | PartKey.headers => s.headers
  | PartKey.params => s.params

/-- `Object.fromEntries(new URL(req.url).searchParams)` — the query part's raw data. -/
def queryData (req : Req) : JsValue :=
  JsValue.obj (jsFromEntries ((searchParamPairs req.url).map (fun p => (p.1, JsValue.str p.2))))

/-- The headers record collected by `req.headers.forEach`. -/
def headersData (req : Req) : JsValue :=
  JsValue.obj (req.headersList.map (fun p => (p.1, JsValue.str p.2)))

/-- `req.params` — the router's captured path parameters. -/
def paramsData (req : Req) : JsValue :=
  JsValue.obj (req.paramsList.map (fun p => (p.1, JsValue.str p.2)))

/--
`part.getData(request)`: the body part JSON-parses the body and maps any
parse failure to a thrown `Error('Invalid JSON in request body')`; the
other parts extract their data without throwing.
-/
def partGetData : PartKey → Req → Except ThrownVal JsValue
  | PartKey.body, req =>
    match req.jsonBody with
    | some v => Except.ok v
    | none => Except.error (ThrownVal.errObj "Invalid JSON in request body")
  | PartKey.query, req => Except.ok (queryData req)
  | PartKey.headers, req => Except.ok (headersData req)
  | PartKey.params, req => Except.ok (paramsData req)

/-- `(request as any)[part.key] = result.data`. -/
def setPart (req : Req) : PartKey → JsValue → Req
  | PartKey.body, v => { req with vBody := v }
  | PartKey.query, v => { req with vQuery := v }
  | PartKey.headers, v => { req with vHeaders := v }
  | PartKey.params, v => { req with vParams := v }

/--
The `for (const part of validationParts)` loop inside `_validateSchema`'s
`try` block: skip parts without a schema; on `safeParse` failure return the
400 response naming the part; on success decorate the request and continue;
a thrown value aborts the loop (to be handled by the `catch`), carrying the
request state mutated so far.  `Except.ok` carries the middleware's return
value (`undefined` after a complete pass) and the final request.
-/
def runValidationParts (s : ValidationSchemas) : List PartKey → Req → Except (ThrownVal × Req) (JsValue × Req)
  | [], req => Except.ok (JsValue.undefined, req)
  | k :: rest, req =>
    match partSchema s k with
    | none => runValidationParts s rest req
    | some check =>
      match partGetData k req with
      | Except.error e => Except.error (e, req)
      | Except.ok d =>
        match check d with
        | ParseOutcome.thrown e => Except.error (e, req)
        | ParseOutcome.failure issues =>
          Except.ok
            (JsValue.response 400
              (JsValue.obj [("error", JsValue.str (partName k ++ " validation failed")), ("issues", issues)]),
             req)
        | ParseOutcome.success d2 => runValidationParts s rest (setPart req k d2)

/--
`RouteBuilder._validateSchema(method)` as a middleware, applied to the
schema set registered for the method (`this.schemas.get(method)`; `none`
when no schema set exists, in which case the middleware returns
`undefined`).  The `catch` clause converts a thrown
`Error('Invalid JSON in request body')` into its own 400 response and every
other thrown value into the 500 `Schema validation error` response.
-/
def validateSchemaMW (schemasOpt : Option ValidationSchemas) : Middleware :=
  fun req =>
    match schemasOpt with
    | none => (JsValue.undefined, req)
    | some s =>
      match runValidationParts s validationOrder req with
      | Except.ok r => r
      | Except.error (ThrownVal.errObj msg, req2) =>
        if msg = "Invalid JSON in request body"
        then (JsValue.response 400 (JsValue.obj [("error", JsValue.str msg)]), req2)
        else (JsValue.response 500 (JsValue.obj [("error", JsValue.str "Schema validation error")]), req2)
      | Except.error (ThrownVal.rawVal _, req2) =>
        (JsValue.response 500 (JsValue.obj [("error", JsValue.str "Schema validation error")]), req2)

/-! ## RouteBuilder state and operations -/

/-- The seven HTTP methods of `RouteMethod` in `src/types`. -/
inductive RouteMethod where
  | get
  | post
  | put
  | delete
  | patch
  | head
  | options
deriving DecidableEq

/-- The lowercase name of a `RouteMethod` (its string value in the source). -/
def methodName : RouteMethod → String
  | RouteMethod.get => "get"
  | RouteMethod.post => "post"
  | RouteMethod.put => "put"
  | RouteMethod.delete => "delete"
  | RouteMethod.patch => "patch"
  | RouteMethod.head => "head"
  | RouteMethod.options => "options"

/-- `Map`-keyed-by-`RouteMethod` lookup (insertion-ordered association list). -/
def lookupM {α : Type} (m : RouteMethod) : List (RouteMethod × α) → Option α
  | [] => none
  | p :: rest => if p.1 = m then some p.2 else lookupM m rest

/--
An entry of `middlewarePerMethod`: a user-supplied middleware function, or
the internally generated `this._validateSchema(method)` closure appended by
`schema` (resolved against the builder's schema map when run).
-/
inductive MWEntry where
  | user (mw : Middleware)
  | validate (m : RouteMethod)

/-- A `Middleware | Middleware[]` value of a `MiddlewareMap` entry. -/
inductive MWSpec where
  | single (mw : Middleware)
  | many (mws : List Middleware)

/-- The `toArray` helper of `RouteBuilder.ts`. -/
def toArrayMW : Option MWSpec → List Middleware
  | none => []
  | some (MWSpec.single mw) => [mw]
  | some (MWSpec.many mws) => mws

/--
The mutable state of one `RouteBuilder` instance: the `handlers` map, the
`schemas` map (both insertion-ordered `Map`s) and the per-method middleware
sequences `middlewarePerMethod`.
-/
structure RBState where
  handlers : List (RouteMethod × Handler)
  schemas : List (RouteMethod × ValidationSchemas)
  mpm : RouteMethod → List MWEntry

/--
The `RouteBuilder` constructor: empty handler and schema maps; every method
whose key appears in the given `MiddlewareMap` gets `toArray` of its value,
every other method the default `[]`.
-/
def newRouteBuilder (mmap : RouteMethod → Option MWSpec) : RBState :=
  { handlers := [],
    schemas := [],
    mpm := fun m => (toArrayMW (mmap m)).map MWEntry.user }

/--
`RouteBuilder.on(method, listener)`: throws
`Handler for METHOD already defined.` when the method already has a
handler (the throw precedes any mutation, so the error carries the state at
the moment of the throw), otherwise records the handler.
-/
def RBState.on (st : RBState) (m : RouteMethod) (h : Handler) : Except (String × RBState) RBState :=
  if (lookupM m st.handlers).isSome then
    Except.error ("Handler for " ++ jsToUpperCase (methodName m) ++ " already defined.", st)
  else
    Except.ok { st with handlers := st.handlers ++ [(m, h)] }

/--
`RouteBuilder.schema(method, schemaCallback)`: throws
`Schemas for METHOD already defined.` when the method already has a schema
set (before any mutation), otherwise records the schema set and appends the
generated validation middleware after the method's current middleware.
-/
def RBState.schema (st : RBState) (m : RouteMethod) (s : ValidationSchemas) : Except (String × RBState) RBState :=
  if (lookupM m st.schemas).isSome then
    Except.error ("Schemas for " ++ jsToUpperCase (methodName m) ++ " already defined.", st)
  else
    Except.ok
      { st with
        schemas := st.schemas ++ [(m, s)],
        mpm := fun m2 => if m2 = m then st.mpm m ++ [MWEntry.validate m] else st.mpm m2 }

/--
Resolve a `middlewarePerMethod` entry to a runnable middleware: the
`_validateSchema(method)` closure reads `this.schemas.get(method)` when the
request arrives.
-/
def resolveEntry (st : RBState) : MWEntry → Middleware
  | MWEntry.user mw => mw
  | MWEntry.validate m => validateSchemaMW (lookupM m st.schemas)

/--
`RouteBuilder.build()` (lines 161-184): for every registered handler, in
`Map` insertion order, produce the compiled per-method callable under the
uppercased method name.
-/
def RBState.build (st : RBState) : List (String × (Req → JsValue)) :=
  st.handlers.map
    (fun p => (jsToUpperCase (methodName p.1), compiledHandler p.2 ((st.mpm p.1).map (resolveEntry st))))

/-! ## Request dispatcher (`src/http.ts`) -/

/--
A value of the routes table: a single callable (`SimpleRouteHandler`) or a
compiled method table (`MethodHandlers`).
-/
inductive RegisteredRoute where
  | fn (h : Req → JsValue)
  | methodTable (tbl : List (String × (Req → JsValue)))

/-- The catch-all installed by `buildRoutes`: `routes['*'] = () => Response.json({error: 'Not found'}, {status: 404})`. -/
def catchAllRoute : RegisteredRoute :=
  RegisteredRoute.fn (fun _ => JsValue.response 404 (JsValue.obj [("error", JsValue.str "Not found")]))

/--
`dispatchRequest(request, routes, server)`: look the pathname up in the
table, falling back to the `'*'` entry (`routes[pathname] ?? routes['*']`);
call a single callable directly; otherwise look up the uppercased request
method in the method table and return the 405 response when it is absent.
`none` models the `TypeError` the source would hit if neither the pathname
nor `'*'` were present (never the case for tables built by `buildRoutes`).
-/
def dispatchRequest (routes : List (String × RegisteredRoute)) (req : Req) : Option JsValue :=
  match Option.orElse (jsLookup routes (urlPathname req.url)) (fun _ => jsLookup routes "*") with
  | none => none
  | some (RegisteredRoute.fn h) => some (h req)
  | some (RegisteredRoute.methodTable tbl) =>
    match jsLookup tbl (jsToUpperCase req.method) with
    | none => some (JsValue.response 405 (JsValue.obj [("error", JsValue.str "Method Not Allowed")]))
    | some mh => some (mh req)

/--
`PartsOk s parts req req'` holds when running the validation loop on the
listed parts from state `req` skips or successfully validates every part,
ending in state `req'` (each success writing the validated value onto the
request).
-/
inductive PartsOk (s : ValidationSchemas) : List PartKey → Req → Req → Prop where
  | nil (req : Req) : PartsOk s [] req req
  | skip {k : PartKey} {rest : List PartKey} {req req' : Req} :
      partSchema s k = none → PartsOk s rest req req' → PartsOk s (k :: rest) req req'
  | ok {k : PartKey} {rest : List PartKey} {req req' : Req} {chk : Validator} {d v : JsValue} :
      partSchema s k = some chk → partGetData k req = Except.ok d →
      chk d = ParseOutcome.success v → PartsOk s rest (setPart req k v) req' →
      PartsOk s (k :: rest) req req'

/-- A sample request used to instantiate theorems at concrete inputs. -/
def sampleReq : Req :=
  { url := "http://localhost/items?tag=a",
    method := "GET",
    jsonBody := some (JsValue.obj [("message", JsValue.str "hi")]),
    headersList := [("content-type", "application/json")],
    paramsList := [("id", "42")] }

/--
The `catch`'s discriminating test
(`error instanceof Error && error.message === 'Invalid JSON in request body'`)
as a boolean.
-/
def isInvalidJsonError : ThrownVal → Bool
  | ThrownVal.errObj msg => decide (msg = "Invalid JSON in request body")
  | ThrownVal.rawVal _ => false

/--
A sample Zod body schema for `{ message: z.string().min(1) }`: succeeds on
an object whose `message` is a non-empty string, fails otherwise.
-/
def msgValidator : Validator := fun v =>
  match v with
  | JsValue.obj [("message", JsValue.str m)] =>
    if m = "" then ParseOutcome.failure (JsValue.arr [JsValue.str "too_small"])
    else ParseOutcome.success v
  | _ => ParseOutcome.failure (JsValue.arr [JsValue.str "invalid_type"])

/-- A sample schema set validating only the body. -/
def msgSchemas : ValidationSchemas := { body := some msgValidator }

/-- A sample POST request with the given (possibly malformed) JSON body. -/
def reqWithBody (b : Option JsValue) : Req :=
  { url := "http://localhost/echo",
    method := "POST",
    jsonBody := b,
    headersList := [],
    paramsList := [] }

/-! ## Helper lemmas about the compiled middleware chain -/

theorem isResponse_elim {v : JsValue} (h : isResponse v = true) :
    ∃ s b, v = JsValue.response s b := by
  cases v <;> simp [isResponse] at h ⊢

theorem isFalseLiteral_elim {v : JsValue} (h : isFalseLiteral v = true) :
    v = JsValue.bool false := by
  cases v with
  | bool b => cases b <;> simp [isFalseLiteral] at h ⊢
  | _ => simp [isFalseLiteral] at h

theorem normalizeHandlerResult_response {v : JsValue} (h : isResponse v = true) :
    normalizeHandlerResult v = v := by
  obtain ⟨s, b, rfl⟩ := isResponse_elim h
  rfl

theorem normalizeHandlerResult_other {v : JsValue} (h : isResponse v = false) :
    normalizeHandlerResult v = JsValue.response 200 v := by
  cases v <;> first | rfl | simp [isResponse] at h

theorem compiledHandler_cons_response (handler : Handler) (mw : Middleware)
    (rest : List Middleware) (req : Req) (h : isResponse (mw req).1 = true) :
    compiledHandler handler (mw :: rest) req = (mw req).1 := by
  obtain ⟨s, b, hv⟩ := isResponse_elim h
  simp [compiledHandler, hv]

theorem compiledHandler_cons_false (handler : Handler) (mw : Middleware)
    (rest : List Middleware) (req : Req) (h : isFalseLiteral (mw req).1 = true) :
    compiledHandler handler (mw :: rest) req = JsValue.response 403 JsValue.nullV := by
  have hv := isFalseLiteral_elim h
  simp [compiledHandler, hv]

theorem compiledHandler_cons_continue (handler : Handler) (mw : Middleware)
    (rest : List Middleware) (req : Req) (hr : isResponse (mw req).1 = false)
    (hf : isFalseLiteral (mw req).1 = false) :
    compiledHandler handler (mw :: rest) req = compiledHandler handler rest (mw req).2 := by
  cases hv : (mw req).1 with
  | response s b => rw [hv] at hr; simp [isResponse] at hr
  | bool b =>
    cases b with
    | false => rw [hv] at hf; simp [isFalseLiteral] at hf
    | true => simp [compiledHandler, hv]
  | _ => simp [compiledHandler, hv]

theorem compiledHandlerTrace_cons_response (handler : Handler) (mw : Middleware)
    (rest : List Middleware) (i : Nat) (req : Req) (h : isResponse (mw req).1 = true) :
    compiledHandlerTrace handler (mw :: rest) i req = ((mw req).1, [ChainEvent.mw i]) := by
  obtain ⟨s, b, hv⟩ := isResponse_elim h
  simp [compiledHandlerTrace, hv]

theorem compiledHandlerTrace_cons_false (handler : Handler) (mw : Middleware)
    (rest : List Middleware) (i : Nat) (req : Req) (h : isFalseLiteral (mw req).1 = true) :
    compiledHandlerTrace handler (mw :: rest) i req
      = (JsValue.response 403 JsValue.nullV, [ChainEvent.mw i]) := by
  have hv := isFalseLiteral_elim h
  simp [compiledHandlerTrace, hv]

theorem compiledHandlerTrace_cons_continue (handler : Handler) (mw : Middleware)
    (rest : List Middleware) (i : Nat) (req : Req) (hr : isResponse (mw req).1 = false)
    (hf : isFalseLiteral (mw req).1 = false) :
    compiledHandlerTrace handler (mw :: rest) i req
      = ((compiledHandlerTrace handler rest (i + 1) (mw req).2).1,
         ChainEvent.mw i :: (compiledHandlerTrace handler rest (i + 1) (mw req).2).2) := by
  cases hv : (mw req).1 with
  | response s b => rw [hv] at hr; simp [isResponse] at hr
  | bool b =>
    cases b with
    | false => rw [hv] at hf; simp [isFalseLiteral] at hf
    | true => simp [compiledHandlerTrace, hv]
  | _ => simp [compiledHandlerTrace, hv]

theorem chainPasses_cons_elim {mw : Middleware} {rest : List Middleware} {req : Req}
    (h : chainPasses (mw :: rest) req = true) :
    isResponse (mw req).1 = false ∧ isFalseLiteral (mw req).1 = false ∧
      chainPasses rest (mw req).2 = true := by
  cases hv : (mw req).1 with
  | response s b => simp [chainPasses, hv] at h
  | bool b =>
    cases b with
    | false => simp [chainPasses, hv] at h
    | true =>
      simp [chainPasses, hv] at h
      exact ⟨rfl, rfl, h⟩
  | _ =>
    simp [chainPasses, hv] at h
    exact ⟨rfl, rfl, h⟩

theorem chainFinal_cons_continue {mw : Middleware} {rest : List Middleware} {req : Req}
    (hr : isResponse (mw req).1 = false) (hf : isFalseLiteral (mw req).1 = false) :
    chainFinal (mw :: rest) req = chainFinal rest (mw req).2 := by
  cases hv : (mw req).1 with
  | response s b => rw [hv] at hr; simp [isResponse] at hr
  | bool b =>
    cases b with
    | false => rw [hv] at hf; simp [isFalseLiteral] at hf
    | true => simp [chainFinal, hv]
  | _ => simp [chainFinal, hv]

theorem continue_signal_flags {v : JsValue}
    (h : v = JsValue.undefined ∨ v = JsValue.bool true) :
    isResponse v = false ∧ isFalseLiteral v = false := by
  rcases h with h | h <;> rw [h] <;> exact ⟨rfl, rfl⟩

theorem lookupM_append_isSome {α : Type} (m : RouteMethod) (l : List (RouteMethod × α)) (x : α) :
    (lookupM m (l ++ [(m, x)])).isSome = true := by
  induction l with
  | nil => simp [lookupM]
  | cons p rest ih =>
    by_cases hpm : p.1 = m <;> simp [lookupM, hpm, ih]

/-! ## Claim theorems -/

/--
C1: In a compiled method handler with middleware `[A, B]` (followed by any
further middleware) and a business handler, if A's awaited result signals
continue (`undefined` or `true`) and B's awaited result is the strict
boolean `false`, the handler returns the 403 response, A and B each execute
exactly once, and nothing after B (later middleware or the business
handler) executes; if instead A's awaited result is a `Response`, that
exact response is returned unmodified and only A executes.
-/
theorem c1_middleware_short_circuit :
    (∀ (A B : Middleware) (rest : List Middleware) (h : Handler) (req : Req),
      ((A req).1 = JsValue.undefined ∨ (A req).1 = JsValue.bool true) →
      (B (A req).2).1 = JsValue.bool false →
      compiledHandler h (A :: B :: rest) req = JsValue.response 403 JsValue.nullV ∧
        (compiledHandlerTrace h (A :: B :: rest) 0 req).2 = [ChainEvent.mw 0, ChainEvent.mw 1]) ∧
    (∀ (A B : Middleware) (rest : List Middleware) (h : Handler) (req : Req) (s : Nat) (b : JsValue),
      (A req).1 = JsValue.response s b →
      compiledHandler h (A :: B :: rest) req = JsValue.response s b ∧
        (compiledHandlerTrace h (A :: B :: rest) 0 req).2 = [ChainEvent.mw 0]) := by
  constructor
  · intro A B rest h req hA hB
    obtain ⟨hr, hf⟩ := continue_signal_flags hA
    have hBf : isFalseLiteral (B (A req).2).1 = true := by rw [hB]; rfl
    constructor
    · rw [compiledHandler_cons_continue h A (B :: rest) req hr hf]
      exact compiledHandler_cons_false h B rest (A req).2 hBf
    · rw [compiledHandlerTrace_cons_continue h A (B :: rest) 0 req hr hf,
        compiledHandlerTrace_cons_false h B rest 1 (A req).2 hBf]
  · intro A B rest h req s b hA
    have hr : isResponse (A req).1 = true := by rw [hA]; rfl
    constructor
    · rw [compiledHandler_cons_response h A (B :: rest) req hr, hA]
    · rw [compiledHandlerTrace_cons_response h A (B :: rest) 0 req hr]

/-- Witness for C1 at concrete middlewares, handler and request. -/
theorem c1_middleware_short_circuit_witness :
    (compiledHandler (fun _ => JsValue.str "hi")
        [fun r => (JsValue.undefined, r), fun r => (JsValue.bool false, r)] sampleReq
          = JsValue.response 403 JsValue.nullV ∧
      (compiledHandlerTrace (fun _ => JsValue.str "hi")
        [fun r => (JsValue.undefined, r), fun r => (JsValue.bool false, r)] 0 sampleReq).2
          = [ChainEvent.mw 0, ChainEvent.mw 1]) ∧
    (compiledHandler (fun _ => JsValue.str "hi")
        [fun r => (JsValue.response 418 (JsValue.str "teapot"), r), fun r => (JsValue.bool false, r)]
        sampleReq = JsValue.response 418 (JsValue.str "teapot") ∧
      (compiledHandlerTrace (fun _ => JsValue.str "hi")
        [fun r => (JsValue.response 418 (JsValue.str "teapot"), r), fun r => (JsValue.bool false, r)]
        0 sampleReq).2 = [ChainEvent.mw 0]) := by
  constructor
  · exact c1_middleware_short_circuit.1 (fun r => (JsValue.undefined, r))
      (fun r => (JsValue.bool false, r)) [] (fun _ => JsValue.str "hi") sampleReq (Or.inl rfl) rfl
  · exact c1_middleware_short_circuit.2 (fun r => (JsValue.response 418 (JsValue.str "teapot"), r))
      (fun r => (JsValue.bool false, r)) [] (fun _ => JsValue.str "hi") sampleReq 418
      (JsValue.str "teapot") rfl

/--
C10: A middleware's awaited result stops the compiled chain only when it is
a `Response` instance (returned as-is) or the strict boolean `false`
(producing the empty-body 403); every other result value continues the
chain with the (possibly mutated) request, so the compiled handler is total
over out-of-contract middleware return shapes.
-/
theorem c10_middleware_result_totality :
    ∀ (mw : Middleware) (rest : List Middleware) (h : Handler) (req : Req),
      (isResponse (mw req).1 = true → compiledHandler h (mw :: rest) req = (mw req).1) ∧
      (isFalseLiteral (mw req).1 = true →
        compiledHandler h (mw :: rest) req = JsValue.response 403 JsValue.nullV) ∧
      (isResponse (mw req).1 = false → isFalseLiteral (mw req).1 = false →
        compiledHandler h (mw :: rest) req = compiledHandler h rest (mw req).2) := by
  intro mw rest h req
  exact ⟨compiledHandler_cons_response h mw rest req,
    compiledHandler_cons_false h mw rest req,
    fun hr hf => compiledHandler_cons_continue h mw rest req hr hf⟩

/--
Witness for C10: a string, `true`, `null` and an object result each
continue to the handler; a response result and `false` stop the chain.
-/
theorem c10_middleware_result_totality_witness :
    compiledHandler (fun _ => JsValue.num 7) [fun r => (JsValue.str "x", r)] sampleReq
        = compiledHandler (fun _ => JsValue.num 7) [] sampleReq ∧
      compiledHandler (fun _ => JsValue.num 7) [fun r => (JsValue.bool true, r)] sampleReq
        = compiledHandler (fun _ => JsValue.num 7) [] sampleReq ∧
      compiledHandler (fun _ => JsValue.num 7) [fun r => (JsValue.nullV, r)] sampleReq
        = compiledHandler (fun _ => JsValue.num 7) [] sampleReq ∧
      compiledHandler (fun _ => JsValue.num 7) [fun r => (JsValue.obj [("a", JsValue.num 1)], r)] sampleReq
        = compiledHandler (fun _ => JsValue.num 7) [] sampleReq ∧
      compiledHandler (fun _ => JsValue.num 7) [fun r => (JsValue.response 302 JsValue.nullV, r)] sampleReq
        = JsValue.response 302 JsValue.nullV ∧
      compiledHandler (fun _ => JsValue.num 7) [fun r => (JsValue.bool false, r)] sampleReq
        = JsValue.response 403 JsValue.nullV := by
  refine ⟨?_, ?_, ?_, ?_, ?_, ?_⟩
  · exact (c10_middleware_result_totality (fun r => (JsValue.str "x", r)) []
      (fun _ => JsValue.num 7) sampleReq).2.2 rfl rfl
  · exact (c10_middleware_result_totality (fun r => (JsValue.bool true, r)) []
      (fun _ => JsValue.num 7) sampleReq).2.2 rfl rfl
  · exact (c10_middleware_result_totality (fun r => (JsValue.nullV, r)) []
      (fun _ => JsValue.num 7) sampleReq).2.2 rfl rfl
  · exact (c10_middleware_result_totality (fun r => (JsValue.obj [("a", JsValue.num 1)], r)) []
      (fun _ => JsValue.num 7) sampleReq).2.2 rfl rfl
  · exact (c10_middleware_result_totality (fun r => (JsValue.response 302 JsValue.nullV, r)) []
      (fun _ => JsValue.num 7) sampleReq).1 rfl
  · exact (c10_middleware_result_totality (fun r => (JsValue.bool false, r)) []
      (fun _ => JsValue.num 7) sampleReq).2.1 rfl

/--
C7: When the middleware chain completes without short-circuiting, a
business-handler result that is a `Response` is returned verbatim (status
unchanged), and any other result is serialized as a JSON response with
status 200.
-/
theorem c7_handler_result_normalization :
    ∀ (mws : List Middleware) (h : Handler) (req : Req),
      chainPasses mws req = true →
      (isResponse (h (chainFinal mws req)) = true →
        compiledHandler h mws req = h (chainFinal mws req)) ∧
      (isResponse (h (chainFinal mws req)) = false →
        compiledHandler h mws req = JsValue.response 200 (h (chainFinal mws req))) := by
  intro mws
  induction mws with
  | nil =>
    intro h req _
    constructor
    · intro hv
      exact normalizeHandlerResult_response hv
    · intro hv
      exact normalizeHandlerResult_other hv
  | cons mw rest ih =>
    intro h req hp
    obtain ⟨hr, hf, hrest⟩ := chainPasses_cons_elim hp
    have hfin := @chainFinal_cons_continue mw rest req hr hf
    have hstep := compiledHandler_cons_continue h mw rest req hr hf
    have ihr := ih h (mw req).2 hrest
    rw [hfin, hstep]
    exact ihr

/-- Witness for C7: a data-value result is wrapped with status 200, a response result passes through with status 201. -/
theorem c7_handler_result_normalization_witness :
    compiledHandler (fun _ => JsValue.obj [("k", JsValue.num 3)]) [fun r => (JsValue.bool true, r)]
        sampleReq = JsValue.response 200 (JsValue.obj [("k", JsValue.num 3)]) ∧
      compiledHandler (fun _ => JsValue.response 201 JsValue.nullV) [fun r => (JsValue.bool true, r)]
        sampleReq = JsValue.response 201 JsValue.nullV := by
  constructor
  · exact (c7_handler_result_normalization [fun r => (JsValue.bool true, r)]
      (fun _ => JsValue.obj [("k", JsValue.num 3)]) sampleReq rfl).2 rfl
  · exact (c7_handler_result_normalization [fun r => (JsValue.bool true, r)]
      (fun _ => JsValue.response 201 JsValue.nullV) sampleReq rfl).1 rfl

/--
C2: A request whose pathname is absent from the route table resolves to the
`'*'` catch-all and (with the catch-all installed by `buildRoutes`) yields
the 404 `{error: "Not found"}` JSON response for any HTTP method; a request
whose pathname resolves to a method table with no entry under the
uppercased request method yields the 405 `{error: "Method Not Allowed"}`
JSON response without invoking any handler or middleware.
-/
theorem c2_dispatch_fallbacks :
    (∀ (routes : List (String × RegisteredRoute)) (req : Req),
      jsLookup routes (urlPathname req.url) = none →
      jsLookup routes "*" = some catchAllRoute →
      dispatchRequest routes req
        = some (JsValue.response 404 (JsValue.obj [("error", JsValue.str "Not found")]))) ∧
    (∀ (routes : List (String × RegisteredRoute)) (req : Req)
        (tbl : List (String × (Req → JsValue))),
      jsLookup routes (urlPathname req.url) = some (RegisteredRoute.methodTable tbl) →
      jsLookup tbl (jsToUpperCase req.method) = none →
      dispatchRequest routes req
        = some (JsValue.response 405 (JsValue.obj [("error", JsValue.str "Method Not Allowed")]))) := by
  constructor
  · intro routes req h1 h2
    simp [dispatchRequest, h1, h2, Option.orElse, catchAllRoute]
  · intro routes req tbl h1 h2
    simp [dispatchRequest, h1, h2, Option.orElse]

/-- Witness for C2: an unregistered pathname and a registered path with the wrong method. -/
theorem c2_dispatch_fallbacks_witness :
    dispatchRequest [("*", catchAllRoute)] sampleReq
        = some (JsValue.response 404 (JsValue.obj [("error", JsValue.str "Not found")])) ∧
      dispatchRequest [("/items", RegisteredRoute.methodTable [("POST", fun _ => JsValue.nullV)])]
          sampleReq
        = some (JsValue.response 405 (JsValue.obj [("error", JsValue.str "Method Not Allowed")])) := by
  constructor
  · exact c2_dispatch_fallbacks.1 [("*", catchAllRoute)] sampleReq (by rfl) (by rfl)
  · exact c2_dispatch_fallbacks.2
      [("/items", RegisteredRoute.methodTable [("POST", fun _ => JsValue.nullV)])] sampleReq
      [("POST", fun _ => JsValue.nullV)] (by rfl) (by rfl)

/--
C9: `build()` returns a table whose keys are exactly the uppercase names of
the methods with a registered handler (in registration order), and building
with no registered handlers yields the empty table rather than an error.
-/
theorem c9_build_key_set :
    (∀ st : RBState,
      (RBState.build st).map Prod.fst = st.handlers.map (fun p => jsToUpperCase (methodName p.1))) ∧
    (∀ st : RBState, st.handlers = [] → RBState.build st = []) ∧
    (∀ mmap : RouteMethod → Option MWSpec, RBState.build (newRouteBuilder mmap) = []) := by
  refine ⟨?_, ?_, ?_⟩
  · intro st
    simp [RBState.build]
  · intro st h
    simp [RBState.build, h]
  · intro mmap
    rfl

/-- Witness for C9: a freshly constructed builder has an empty handler list and builds to the empty table. -/
theorem c9_build_key_set_witness :
    RBState.build (newRouteBuilder (fun _ => none)) = [] := by
  exact c9_build_key_set.2.1 (newRouteBuilder (fun _ => none)) rfl

/--
C4: Registering a second handler (or a second schema set) for a method that
already has one fails with the duplicate-registration error, and the state
carried at the moment of the throw is exactly the state left by the first
registration — handler map, schema map and per-method middleware untouched.
-/
theorem c4_duplicate_registration :
    (∀ (st st1 : RBState) (m : RouteMethod) (h h2 : Handler),
      RBState.on st m h = Except.ok st1 →
      RBState.on st1 m h2
        = Except.error ("Handler for " ++ jsToUpperCase (methodName m) ++ " already defined.", st1)) ∧
    (∀ (st st1 : RBState) (m : RouteMethod) (s s2 : ValidationSchemas),
      RBState.schema st m s = Except.ok st1 →
      RBState.schema st1 m s2
        = Except.error ("Schemas for " ++ jsToUpperCase (methodName m) ++ " already defined.", st1)) := by
  constructor
  · intro st st1 m h h2 hok
    unfold RBState.on at hok ⊢
    by_cases hc : (lookupM m st.handlers).isSome
    · rw [if_pos hc] at hok
      exact absurd hok (by simp)
    · rw [if_neg hc] at hok
      injection hok with hok
      subst hok
      rw [if_pos]
      exact lookupM_append_isSome m st.handlers h
  · intro st st1 m s s2 hok
    unfold RBState.schema at hok ⊢
    by_cases hc : (lookupM m st.schemas).isSome
    · rw [if_pos hc] at hok
      exact absurd hok (by simp)
    · rw [if_neg hc] at hok
      injection hok with hok
      subst hok
      rw [if_pos]
      exact lookupM_append_isSome m st.schemas s

/-- Witness for C4: duplicate GET handler and duplicate GET schema registrations fail and keep the first registration. -/
theorem c4_duplicate_registration_witness :
    RBState.on
        { handlers := [(RouteMethod.get, fun _ => JsValue.nullV)], schemas := [], mpm := fun _ => [] }
        RouteMethod.get (fun _ => JsValue.bool true)
      = Except.error ("Handler for GET already defined.",
          { handlers := [(RouteMethod.get, fun _ => JsValue.nullV)], schemas := [],
            mpm := fun _ => [] }) ∧
    RBState.schema
        { handlers := [], schemas := [(RouteMethod.get, msgSchemas)],
          mpm := fun m => if m = RouteMethod.get then [MWEntry.validate RouteMethod.get] else [] }
        RouteMethod.get { }
      = Except.error ("Schemas for GET already defined.",
          { handlers := [], schemas := [(RouteMethod.get, msgSchemas)],
            mpm := fun m => if m = RouteMethod.get then [MWEntry.validate RouteMethod.get] else [] }) := by
  constructor
  · exact c4_duplicate_registration.1
      { handlers := [], schemas := [], mpm := fun _ => [] }
      { handlers := [(RouteMethod.get, fun _ => JsValue.nullV)], schemas := [], mpm := fun _ => [] }
      RouteMethod.get (fun _ => JsValue.nullV) (fun _ => JsValue.bool true) rfl
  · exact c4_duplicate_registration.2
      { handlers := [], schemas := [], mpm := fun _ => [] }
      { handlers := [], schemas := [(RouteMethod.get, msgSchemas)],
        mpm := fun m => if m = RouteMethod.get then [MWEntry.validate RouteMethod.get] else [] }
      RouteMethod.get msgSchemas { } rfl

/--
A successfully validated prefix of the part list advances the validation
loop to its final request state: the loop over `pre ++ l` equals the loop
over `l` started from the decorated request.
-/
theorem runValidationParts_append {s : ValidationSchemas} {pre : List PartKey} {req req1 : Req}
    (h : PartsOk s pre req req1) (l : List PartKey) :
    runValidationParts s (pre ++ l) req = runValidationParts s l req1 := by
  induction h with
  | nil req => rfl
  | skip hnone _ ih =>
    simpa [runValidationParts, hnone] using ih
  | ok hchk hdata hsucc _ ih =>
    simpa [runValidationParts, hchk, hdata, hsucc] using ih

/--
C3: The generated validation middleware evaluates the sub-schemas in the
fixed order body, query, headers, params; if after a successfully validated
prefix the next present sub-schema's `safeParse` fails, the compiled
handler returns the 400 response naming that part with its issues — no
later sub-schema is evaluated and the business handler is not invoked
(the result does not depend on them); when every present sub-schema
succeeds, the business handler runs on the request decorated with every
validated value.
-/
theorem c3_validation_order_and_decoration :
    (∀ (s : ValidationSchemas) (req req1 : Req) (pre rest2 : List PartKey) (k : PartKey)
        (chk : Validator) (d issues : JsValue) (h : Handler),
      validationOrder = pre ++ k :: rest2 →
      PartsOk s pre req req1 →
      partSchema s k = some chk →
      partGetData k req1 = Except.ok d →
      chk d = ParseOutcome.failure issues →
      compiledHandler h [validateSchemaMW (some s)] req
        = JsValue.response 400
            (JsValue.obj
              [("error", JsValue.str (partName k ++ " validation failed")), ("issues", issues)])) ∧
    (∀ (s : ValidationSchemas) (req req' : Req) (h : Handler),
      PartsOk s validationOrder req req' →
      compiledHandler h [validateSchemaMW (some s)] req = normalizeHandlerResult (h req')) := by
  constructor
  · intro s req req1 pre rest2 k chk d issues h horder hpre hchk hdata hfail
    have hrun : runValidationParts s validationOrder req
        = Except.ok
            (JsValue.response 400
              (JsValue.obj
                [("error", JsValue.str (partName k ++ " validation failed")), ("issues", issues)]),
             req1) := by
      rw [horder, runValidationParts_append hpre]
      simp [runValidationParts, hchk, hdata, hfail]
    have hmw : validateSchemaMW (some s) req
        = (JsValue.response 400
            (JsValue.obj
              [("error", JsValue.str (partName k ++ " validation failed")), ("issues", issues)]),
           req1) := by
      simp [validateSchemaMW, hrun]
    simp [compiledHandler, hmw]
  · intro s req req' h hall
    have hrun : runValidationParts s validationOrder req = Except.ok (JsValue.undefined, req') := by
      have := runValidationParts_append hall []
      rwa [List.append_nil] at this
    have hmw : validateSchemaMW (some s) req = (JsValue.undefined, req') := by
      simp [validateSchemaMW, hrun]
    simp [compiledHandler, hmw]

/--
Witness for C3 at the spec's example schema `{message: non-empty string}`:
`{"message": "hi"}` reaches the handler with the validated body, while
`{"message": ""}` short-circuits with the 400 naming `Body`.
-/
theorem c3_validation_order_and_decoration_witness :
    compiledHandler (fun r => r.vBody) [validateSchemaMW (some msgSchemas)]
        (reqWithBody (some (JsValue.obj [("message", JsValue.str "hi")])))
      = JsValue.response 200 (JsValue.obj [("message", JsValue.str "hi")]) ∧
    compiledHandler (fun r => r.vBody) [validateSchemaMW (some msgSchemas)]
        (reqWithBody (some (JsValue.obj [("message", JsValue.str "")])))
      = JsValue.response 400
          (JsValue.obj
            [("error", JsValue.str "Body validation failed"),
             ("issues", JsValue.arr [JsValue.str "too_small"])]) := by
  constructor
  · exact c3_validation_order_and_decoration.2 msgSchemas
      (reqWithBody (some (JsValue.obj [("message", JsValue.str "hi")])))
      (setPart (reqWithBody (some (JsValue.obj [("message", JsValue.str "hi")]))) PartKey.body
        (JsValue.obj [("message", JsValue.str "hi")]))
      (fun r => r.vBody)
      (PartsOk.ok rfl rfl rfl (PartsOk.skip rfl (PartsOk.skip rfl (PartsOk.skip rfl (PartsOk.nil _)))))
  · exact c3_validation_order_and_decoration.1 msgSchemas
      (reqWithBody (some (JsValue.obj [("message", JsValue.str "")])))
      (reqWithBody (some (JsValue.obj [("message", JsValue.str "")])))
      [] [PartKey.query, PartKey.headers, PartKey.params] PartKey.body
      msgValidator (JsValue.obj [("message", JsValue.str "")])
      (JsValue.arr [JsValue.str "too_small"]) (fun r => r.vBody)
      rfl (PartsOk.nil _) rfl rfl rfl

/--
C6: A request body that fails to parse as JSON yields the dedicated 400
`{error: "Invalid JSON in request body"}` response, which differs from the
400 shape-failure response; any other exception thrown during validation is
caught and converted to the 500 `{error: "Schema validation error"}`
response, so no exception propagates out of the validation middleware.
-/
theorem c6_validation_error_containment :
    (∀ (s : ValidationSchemas) (chk : Validator) (req : Req) (h : Handler),
      s.body = some chk → req.jsonBody = none →
      compiledHandler h [validateSchemaMW (some s)] req
        = JsValue.response 400 (JsValue.obj [("error", JsValue.str "Invalid JSON in request body")])) ∧
    (∀ issues : JsValue,
      (JsValue.response 400 (JsValue.obj [("error", JsValue.str "Invalid JSON in request body")])
          = JsValue.response 400
              (JsValue.obj
                [("error", JsValue.str ("Body" ++ " validation failed")), ("issues", issues)]))
        = False) ∧
    (∀ (s : ValidationSchemas) (req req1 : Req) (pre rest2 : List PartKey) (k : PartKey)
        (chk : Validator) (d : JsValue) (e : ThrownVal) (h : Handler),
      validationOrder = pre ++ k :: rest2 →
      PartsOk s pre req req1 →
      partSchema s k = some chk →
      partGetData k req1 = Except.ok d →
      chk d = ParseOutcome.thrown e →
      isInvalidJsonError e = false →
      compiledHandler h [validateSchemaMW (some s)] req
        = JsValue.response 500 (JsValue.obj [("error", JsValue.str "Schema validation error")])) := by
  refine ⟨?_, ?_, ?_⟩
  · intro s chk req h hbody hjson
    have hrun : runValidationParts s validationOrder req
        = Except.error (ThrownVal.errObj "Invalid JSON in request body", req) := by
      simp [runValidationParts, validationOrder, partSchema, hbody, partGetData, hjson]
    have hmw : validateSchemaMW (some s) req
        = (JsValue.response 400 (JsValue.obj [("error", JsValue.str "Invalid JSON in request body")]),
           req) := by
      simp [validateSchemaMW, hrun]
    simp [compiledHandler, hmw]
  · intro issues
    simp
  · intro s req req1 pre rest2 k chk d e h horder hpre hchk hdata hthrown hinv
    have hrun : runValidationParts s validationOrder req = Except.error (e, req1) := by
      rw [horder, runValidationParts_append hpre]
      simp [runValidationParts, hchk, hdata, hthrown]
    have hmw : validateSchemaMW (some s) req
        = (JsValue.response 500 (JsValue.obj [("error", JsValue.str "Schema validation error")]),
           req1) := by
      cases e with
      | errObj msg =>
        have hne : ¬(msg = "Invalid JSON in request body") := by
          simpa [isInvalidJsonError] using hinv
        simp [validateSchemaMW, hrun, hne]
      | rawVal v => simp [validateSchemaMW, hrun]
    simp [compiledHandler, hmw]

/--
Witness for C6: a malformed JSON body with a body schema present gives the
dedicated 400; that response differs from the shape-failure 400; a schema
that throws a non-`Invalid JSON` error gives the 500 response.
-/
theorem c6_validation_error_containment_witness :
    compiledHandler (fun r => r.vBody) [validateSchemaMW (some msgSchemas)] (reqWithBody none)
        = JsValue.response 400 (JsValue.obj [("error", JsValue.str "Invalid JSON in request body")]) ∧
    ((JsValue.response 400 (JsValue.obj [("error", JsValue.str "Invalid JSON in request body")])
        = JsValue.response 400
            (JsValue.obj
              [("error", JsValue.str ("Body" ++ " validation failed")),
               ("issues", JsValue.arr [JsValue.str "too_small"])]))
      = False) ∧
    compiledHandler (fun r => r.vBody)
        [validateSchemaMW
          (some { body := some (fun _ => ParseOutcome.thrown (ThrownVal.errObj "boom")) })]
        (reqWithBody (some JsValue.nullV))
      = JsValue.response 500 (JsValue.obj [("error", JsValue.str "Schema validation error")]) := by
  refine ⟨?_, ?_, ?_⟩
  · exact c6_validation_error_containment.1 msgSchemas msgValidator (reqWithBody none)
      (fun r => r.vBody) rfl rfl
  · exact c6_validation_error_containment.2.1 (JsValue.arr [JsValue.str "too_small"])
  · exact c6_validation_error_containment.2.2
      { body := some (fun _ => ParseOutcome.thrown (ThrownVal.errObj "boom")) }
      (reqWithBody (some JsValue.nullV)) (reqWithBody (some JsValue.nullV))
      [] [PartKey.query, PartKey.headers, PartKey.params] PartKey.body
      (fun _ => ParseOutcome.thrown (ThrownVal.errObj "boom")) JsValue.nullV
      (ThrownVal.errObj "boom") (fun r => r.vBody)
      rfl (PartsOk.nil _) rfl rfl rfl rfl

/-! ## Lemmas about endpoint derivation -/

theorem not_mem_underscoreToColon (l : List Char) : '_' ∉ underscoreToColon l := by
  intro h
  obtain ⟨c, _, hc⟩ := List.mem_map.1 h
  by_cases h' : c = '_'
  · rw [if_pos h'] at hc
    exact absurd hc (by decide)
  · rw [if_neg h'] at hc
    exact h' hc

theorem not_mem_ensureLeadingSlash {l : List Char} (h : '_' ∉ l) : '_' ∉ ensureLeadingSlash l := by
  unfold ensureLeadingSlash
  split
  · exact h
  · intro hm
    rcases List.mem_cons.1 hm with h1 | h1
    · exact absurd h1 (by decide)
    · exact h h1

theorem not_mem_take {l : List Char} (n : Nat) (h : '_' ∉ l) : '_' ∉ l.take n :=
  fun hm => h ((List.take_sublist n l).subset hm)

theorem not_mem_stripIndexRoot {l : List Char} (h : '_' ∉ l) : '_' ∉ stripIndexRoot l := by
  unfold stripIndexRoot dropLastN
  split
  · exact not_mem_take _ h
  · split
    · exact not_mem_take _ h
    · split
      · exact not_mem_take _ h
      · split
        · exact not_mem_take _ h
        · exact h

theorem getEndpointL_no_underscore (rd p : List Char) : '_' ∉ getEndpointL rd p := by
  have h1 : '_' ∉ underscoreToColon (stripSourceExt (replaceFirstStr rd [] (normalizeSlashes p))) :=
    not_mem_underscoreToColon _
  have h2 := not_mem_ensureLeadingSlash h1
  have h3 := not_mem_stripIndexRoot h2
  have hempty : ∀ stripped : List Char, '_' ∉ stripped →
      '_' ∉ (if stripped = [] then ['/'] else stripped) := by
    intro stripped hcl
    split
    · decide
    · exact hcl
  have h4 : ∀ c2 : List Char, '_' ∉ c2 → '_' ∉ (if startsSlash c2 then c2 else '/' :: c2) := by
    intro c2 hcl
    split
    · exact hcl
    · intro hm
      rcases List.mem_cons.1 hm with hh | hh
      · exact absurd hh (by decide)
      · exact hcl hh
  exact h4 _ (hempty _ h3)

theorem startsSlash_head {l : List Char} (h : startsSlash l = true) : l.head? = some '/' := by
  cases l with
  | nil => simp [startsSlash] at h
  | cons c t =>
    have hc : c = '/' := by simpa [startsSlash] using h
    rw [hc]
    rfl

theorem getEndpointL_head (rd p : List Char) : (getEndpointL rd p).head? = some '/' := by
  have h : ∀ cleaned : List Char,
      (if startsSlash cleaned then cleaned else '/' :: cleaned).head? = some '/' := by
    intro cleaned
    split
    · next hs => exact startsSlash_head hs
    · rfl
  exact h _

set_option maxHeartbeats 2000000 in
/--
C5 counterexample: the claim predicts that an underscore not at the start
of a segment is left literal (`routes/foo_bar.ts` → `/foo_bar`) and that a
trailing segment is removed only when it entirely equals `index`/`root`
(`routes/myindex.ts` → `/myindex`); the code disagrees on both inputs.
-/
theorem c5_endpoint_derivation_counterexample :
    (getEndpoint "routes/foo_bar.ts" == "/foo_bar") = false ∧
    getEndpoint "routes/foo_bar.ts" = "/foo:bar" ∧
    (getEndpoint "routes/myindex.ts" == "/myindex") = false ∧
    getEndpoint "routes/myindex.ts" = "/my" :=
  ⟨rfl, rfl, rfl, rfl⟩

set_option maxHeartbeats 2000000 in
/--
C5 (amended): Endpoint derivation converts every underscore anywhere in
the path into `:` (so the derived pattern never contains an underscore),
removes a trailing `index`/`root` even when it is only the tail of the
final segment, strips the source-file extension and ensures a leading
slash; the spec's three examples hold.
-/
theorem c5_endpoint_derivation_amended :
    getEndpoint "routes/users/_id.ts" = "/users/:id" ∧
    getEndpoint "routes/index.ts" = "/" ∧
    getEndpoint "routes/posts/_slug/comments.ts" = "/posts/:slug/comments" ∧
    getEndpoint "routes/foo_bar.ts" = "/foo:bar" ∧
    getEndpoint "routes/myindex.ts" = "/my" ∧
    (∀ p : String, ('_' ∈ (getEndpoint p).toList) = False) := by
  refine ⟨rfl, rfl, rfl, rfl, rfl, ?_⟩
  intro p
  exact eq_false (getEndpointL_no_underscore _ _)

set_option maxHeartbeats 2000000 in
/--
C8 counterexample: derivation is not idempotent on every input path — for
`/a.ts.ts` the derived pattern is `/a.ts`, and deriving again gives `/a`.
-/
theorem c8_endpoint_idempotence_counterexample :
    (getEndpoint (getEndpoint "/a.ts.ts") == getEndpoint "/a.ts.ts") = false ∧
    getEndpoint "/a.ts.ts" = "/a.ts" ∧
    getEndpoint "/a.ts" = "/a" :=
  ⟨rfl, rfl, rfl⟩

set_option maxHeartbeats 2000000 in
/--
C8 (amended): Endpoint derivation is pure: every derived pattern begins
with `/` and equal inputs give equal outputs; re-applying the derivation
returns the pattern unchanged for the spec's example patterns, but not for
every input path (a derived pattern can still end in an extension or an
`index`/`root` suffix, which a second application strips again).
-/
theorem c8_endpoint_derivation_amended :
    (∀ p : String, (getEndpoint p).toList.head? = some '/') ∧
    (∀ p q : String, p = q → getEndpoint p = getEndpoint q) ∧
    (getEndpoint (getEndpoint "routes/users/_id.ts") = getEndpoint "routes/users/_id.ts" ∧
      getEndpoint (getEndpoint "routes/index.ts") = getEndpoint "routes/index.ts" ∧
      getEndpoint (getEndpoint "routes/posts/_slug/comments.ts")
        = getEndpoint "routes/posts/_slug/comments.ts") := by
  refine ⟨?_, ?_, rfl, rfl, rfl⟩
  · intro p
    exact getEndpointL_head _ _
  · intro p q h
    rw [h]

/-- Witness for C8 (amended), discharging the determinism hypothesis at a concrete path. -/
theorem c8_endpoint_derivation_amended_witness :
    getEndpoint "routes/index.ts" = getEndpoint "routes/index.ts" :=
  c8_endpoint_derivation_amended.2.1 "routes/index.ts" "routes/index.ts" rfl

end BunHttp
